import Mathlib

/-!
Verification development for the Click-Tracking-Automation DOM tagger
(`src/core/tagger.ts`, class `DOMTagger`).

The DOM-facing parts of the tagger are shallowly embedded: an element is a
snapshot of everything the tagger reads from it (tag name, attribute list,
class string, text content, current `value` property, its `<option>`
children and selected option, its parent's tag/role for the custom-dropdown
value rule, its ancestor chain for context inference, and its page geometry
for the hero/header/footer position refinement).  Attribute access follows
DOM semantics: `getAttribute` returns the attribute's value or null
(`Option String`), `setAttribute` replaces or appends.  JavaScript string
truthiness (null and `""` are falsy) is modelled by `truthy`.  Pixel
geometry is modelled with exact rationals.
-/

namespace CTA

/-- JS truthiness for a nullable string: `null` and `""` are falsy. -/
def truthy : Option String → Bool
  | none => false
  | some s => s ≠ ""

/-- `getAttribute` on an association list of attributes: first binding wins,
missing attribute is `none` (JS `null`). -/
def getAttrList : List (String × String) → String → Option String
  | [], _ => none
  | (k, v) :: rest, n => if k = n then some v else getAttrList rest n

/-- `setAttribute` on an association list: replace the existing binding for
the name, or append a new one. -/
def setAttrList : List (String × String) → String → String → List (String × String)
  | [], n, v => [(n, v)]
  | (k, w) :: rest, n, v => if k = n then (n, v) :: rest else (k, w) :: setAttrList rest n v

/-- JS `toLowerCase`, on the ASCII range the tagger compares against. -/
def jsToLower (s : String) : String := String.mk (s.data.map Char.toLower)

/-- JS `trim`: strip leading and trailing whitespace. -/
def jsTrim (s : String) : String :=
  String.mk (((s.data.dropWhile Char.isWhitespace).reverse.dropWhile Char.isWhitespace).reverse)

/-- The pattern occurs as a contiguous sublist (substring search). -/
def occursIn (pat : List Char) : List Char → Bool
  | [] => pat.isEmpty
  | c :: rest => pat.isPrefixOf (c :: rest) || occursIn pat rest

/-- JS `s.includes(pat)`. -/
def containsSubstring (s pat : String) : Bool := occursIn pat.data s.data

/-- Collapse each whitespace run to a single hyphen
(JS `.replace(/\s+/g, "-")` on an already-trimmed string).  The flag records
whether the previous character was whitespace. -/
def collapseWsAux : Bool → List Char → List Char
  | _, [] => []
  | prevWs, c :: rest =>
    if c.isWhitespace then collapseWsAux true rest
    else if prevWs then '-' :: c :: collapseWsAux false rest
    else c :: collapseWsAux false rest

/-- The whitespace-separated tokens of a class string (DOM `classList`). -/
def wsTokensAux : List Char → List Char → List String
  | acc, [] => if acc.isEmpty then [] else [String.mk acc.reverse]
  | acc, c :: rest =>
    if c.isWhitespace then
      if acc.isEmpty then wsTokensAux [] rest
      else String.mk acc.reverse :: wsTokensAux [] rest
    else wsTokensAux (c :: acc) rest

/-- DOM `classList` of a class attribute string. -/
def classTokens (s : String) : List String := wsTokensAux [] s.data

/-- An `<option>` child of a `<select>`: its `value` property and its
`textContent` (null allowed). -/
structure OptionElem where
  value : String
  textContent : Option String
deriving DecidableEq, Repr

/-- The parent data read by the custom-dropdown (`<li>`) value rule:
`parentElement.tagName` and `parentElement.getAttribute("role")`. -/
structure ParentInfo where
  tagName : String
  roleAttr : Option String
deriving DecidableEq, Repr

/-- One ancestor as inspected by `determineContext`'s upward walk:
its tag name, its `className`, the `textContent` of the first `h1`-`h6`
found under it by `querySelector` (`none` when there is no heading or its
`textContent` is null; `some ""` when the heading's text is empty, which
the code's truthiness test also skips), and whether this ancestor is
`document.body` (the walk stops after inspecting the body). -/
structure Ancestor where
  tagName : String
  className : String
  heading : Option String
  isBody : Bool
deriving DecidableEq, Repr

/-- Geometry read by the hero/header/footer position refinement:
`getBoundingClientRect().top/.bottom`, `window.pageYOffset`, and the two
scroll heights whose max is the page height.  Modelled as exact rationals. -/
structure Geometry where
  rectTop : ℚ
  rectBottom : ℚ
  pageYOffset : ℚ
  docScrollHeight : ℚ
  bodyScrollHeight : ℚ
deriving DecidableEq, Repr

/-- Snapshot of an element together with everything the tagger reads from
its surroundings. -/
structure Elem where
  tagName : String
  attrs : List (String × String)
  className : String
  textContent : Option String
  value : String
  options : List OptionElem
  selectedOption : Option OptionElem
  parent : Option ParentInfo
  ancestors : List Ancestor
  geom : Geometry
  isBodyElem : Bool
deriving DecidableEq, Repr

/-- `element.getAttribute(n)`. -/
def getAttr (e : Elem) (n : String) : Option String := getAttrList e.attrs n

/-- `element.setAttribute(n, v)`. -/
def setAttr (e : Elem) (n v : String) : Elem := { e with attrs := setAttrList e.attrs n v }

/-- `element.hasAttribute(n)`. -/
def hasAttr (e : Elem) (n : String) : Bool := (getAttr e n).isSome

/-- A node of the DOM tree as seen by the ancestor walks: an element node
(carrying its snapshot) or any other node kind (text, document, ...). -/
inductive Node where
  | elem (e : Elem)
  | other
deriving DecidableEq, Repr

/-- Convenience constructor: an element with the given attribute list and
default (empty) surroundings. -/
def mkElem (attrs : List (String × String)) : Elem :=
  { tagName := "DIV", attrs := attrs, className := "", textContent := none,
    value := "", options := [], selectedOption := none, parent := none,
    ancestors := [], geom := ⟨0, 0, 0, 0, 0⟩, isBodyElem := false }

/-! ## Analytics extraction (`extractAndPushAnalytics`) -/

/-- The payload assembled during the click-time ancestor walk
(`AnalyticsData` in `types.ts`; all fields optional). -/
structure AnalyticsData where
  action : Option String := none
  context : Option String := none
  type : Option String := none
  value : Option String := none
deriving DecidableEq, Repr

/-- `maxTraversalDepth` in `extractAndPushAnalytics`. -/
def maxTraversalDepth : Nat := 10

/-- One iteration of `extractAndPushAnalytics`'s while loop on the pair
(payload so far, `hasAnalyticsData`): non-element nodes are skipped; on an
element node the literal `data-action`/`data-context` attributes are read
and each truthy one overwrites the payload (setting the flag), and the
literal `data-type`/`data-value` attributes likewise overwrite when truthy. -/
def extractStep (acc : AnalyticsData × Bool) (n : Node) : AnalyticsData × Bool :=
  match n with
  | Node.other => acc
  | Node.elem el =>
    let obj := acc.1
    let action := getAttr el "data-action"
    let context := getAttr el "data-context"
    let ty := getAttr el "data-type"
    let v := getAttr el "data-value"
    let step1 : AnalyticsData × Bool :=
      if truthy action || truthy context then
        ({ obj with
            action := if truthy action then action else obj.action,
            context := if truthy context then context else obj.context }, true)
      else (obj, acc.2)
    let obj2 := { step1.1 with type := if truthy ty then ty else step1.1.type }
    let obj3 := { obj2 with value := if truthy v then v else obj2.value }
    (obj3, step1.2)

/-- `extractAndPushAnalytics`: walk up from the clicked node (the chain lists
the clicked node first, then its parents in order) for at most
`maxTraversalDepth` node visits, fold `extractStep`, and emit the payload
(`some`) only when `hasAnalyticsData` was set; otherwise emit nothing. -/
def extractAndPushAnalytics (chain : List Node) : Option AnalyticsData :=
  let r := (chain.take maxTraversalDepth).foldl extractStep ({}, false)
  if r.2 then some r.1 else none

/-- The value of attribute `name` on the last visited element node whose
`name` attribute is truthy (non-null and non-empty); `none` when no visited
node has one.  Describes the overwrite behaviour of `extractStep`. -/
def lastTruthyAttr (name : String) : List Node → Option String
  | [] => none
  | n :: rest =>
    match lastTruthyAttr name rest with
    | some v => some v
    | none =>
      match n with
      | Node.elem e => if truthy (getAttr e name) then getAttr e name else none
      | Node.other => none

example : extractAndPushAnalytics
    [Node.elem (mkElem [("data-action", "inner")]),
     Node.elem (mkElem [("data-action", "outer")])] =
    some { action := some "outer" } := by decide

example : extractAndPushAnalytics [Node.elem (mkElem [("data-value", "7")])] = none := by decide

/-! ## Configuration (`DOMTagger` constructor) -/

/-- The `attributes` field of the constructor's `TaggerConfig` argument:
each key may be supplied (`some`) or absent (`none`). -/
structure AttrConfig where
  type : Option String := none
  action : Option String := none
  context : Option String := none
  value : Option String := none
deriving DecidableEq, Repr

/-- The constructor's `TaggerConfig` argument (`types.ts`): all fields
optional. -/
structure TaggerConfig where
  selectors : Option (List String) := none
  attributes : Option AttrConfig := none
  debug : Option Bool := none
deriving DecidableEq, Repr

/-- The four resolved attribute names held in `this.config.attributes`. -/
structure ResolvedAttrs where
  type : String
  action : String
  context : String
  value : String
deriving DecidableEq, Repr

/-- `this.config` after the constructor ran. -/
structure ResolvedConfig where
  selectors : List String
  attributes : ResolvedAttrs
  debug : Bool
deriving DecidableEq, Repr

/-- `defaultSelectors`. -/
def defaultSelectors : List String := ["a", "button", "span"]

/-- `defaultAttributes`. -/
def defaultAttributes : ResolvedAttrs :=
  { type := "data-type", action := "data-action", context := "data-context", value := "data-value" }

/-- The merge `{ ...this.defaultAttributes, ...config.attributes }`: with an
absent `attributes` object the defaults stand; otherwise each key present on
the override replaces the default for that key (even with an empty string),
and each absent key keeps its default. -/
def mergeAttributes : Option AttrConfig → ResolvedAttrs
  | none => defaultAttributes
  | some a =>
    { type := a.type.getD defaultAttributes.type,
      action := a.action.getD defaultAttributes.action,
      context := a.context.getD defaultAttributes.context,
      value := a.value.getD defaultAttributes.value }

/-- The `DOMTagger` constructor: `config.selectors || defaultSelectors`
(note a supplied empty array is truthy in JS and is kept), the attribute
merge above, and `config.debug || false`. -/
def mkConfig (c : TaggerConfig) : ResolvedConfig :=
  { selectors := c.selectors.getD defaultSelectors,
    attributes := mergeAttributes c.attributes,
    debug := c.debug.getD false }

/-- The configuration obtained from `new DOMTagger()` (all defaults). -/
def defaultConfig : ResolvedConfig := mkConfig {}

/-! ## Classifier: `determineType` -/

/-- `determineType`: the tag is lowercased; an `input` branches on its
`type` attribute; then `select`/`textarea`; then the ARIA `role`; then
case-insensitive class substrings; then `a`/`button`/`span`; else the
lowercase tag itself.  (The surrounding try/catch cannot fire in this
model, where every read is total.) -/
def determineType (e : Elem) : String :=
  let tag := jsToLower e.tagName
  if tag = "input" then
    let inputType := (getAttr e "type").getD ""
    if inputType = "checkbox" then "checkbox"
    else if inputType = "radio" then "radio-button"
    else if inputType = "text" then "text-input"
    else if inputType = "number" then "stepper"
    else if inputType = "range" then "slider"
    else if inputType = "file" then "file-upload"
    else "input"
  else if tag = "select" then "dropdown"
  else if tag = "textarea" then "textarea"
  else
    let role := getAttr e "role"
    if role = some "switch" then "switch"
    else if role = some "slider" then "slider"
    else
      let classList := jsToLower e.className
      if containsSubstring classList "quantity" then "stepper"
      else if containsSubstring classList "toggle" then "toggle"
      else if tag = "a" then "link"
      else if tag = "button" then "button"
      else if tag = "span" then "span"
      else tag

/-- The `<input type=...>` mapping table exactly as §4.1 rule 1 states it. -/
def inputTypeTable : List (String × String) :=
  [("checkbox", "checkbox"), ("radio", "radio-button"), ("text", "text-input"),
   ("number", "stepper"), ("range", "slider"), ("file", "file-upload")]

/-- First-match lookup in a rule table, comparing the scrutinee against each
key in order (scrutinee on the left, as the source's `===` chains do). -/
def tableLookup (x : String) : List (String × String) → Option String
  | [] => none
  | (k, v) :: rest => if x = k then some v else tableLookup x rest

/-- Type inference transcribed from the spec's §4.1 rule list (used to state
claim C7 as a refinement of `determineType`). -/
def determineTypeSpec (e : Elem) : String :=
  let tag := jsToLower e.tagName
  if tag = "input" then
    (tableLookup ((getAttr e "type").getD "") inputTypeTable).getD "input"
  else if tag = "select" then "dropdown"
  else if tag = "textarea" then "textarea"
  else if getAttr e "role" = some "switch" then "switch"
  else if getAttr e "role" = some "slider" then "slider"
  else if containsSubstring (jsToLower e.className) "quantity" then "stepper"
  else if containsSubstring (jsToLower e.className) "toggle" then "toggle"
  else if tag = "a" then "link"
  else if tag = "button" then "button"
  else if tag = "span" then "span"
  else tag

/-! ## Classifier: `determineAction` -/

/-- Rules 2-5 of `determineAction` (everything after the `select` special
case): `aria-label` trimmed when truthy and non-blank, then the element's
trimmed `textContent` when truthy, then `title` trimmed when truthy and
non-blank, then the fallback `"<lowercase-tag>-element"`. -/
def determineActionTail (e : Elem) : String :=
  let ariaLabel := getAttr e "aria-label"
  if truthy ariaLabel && jsTrim (ariaLabel.getD "") ≠ "" then jsTrim (ariaLabel.getD "")
  else
    let text := e.textContent.map jsTrim
    if truthy text then text.getD ""
    else
      let title := getAttr e "title"
      if truthy title && jsTrim (title.getD "") ≠ "" then jsTrim (title.getD "")
      else jsToLower e.tagName ++ "-element"

/-- `determineAction`: for a `select`, when `selectedOptions[0]` exists and
its `textContent` is truthy (non-null and non-empty before trimming) the
trimmed text is returned — even when trimming leaves it empty; otherwise
the remaining rules run. -/
def determineAction (e : Elem) : String :=
  if jsToLower e.tagName = "select" then
    match e.selectedOption with
    | some o =>
      match o.textContent with
      | some t => if t ≠ "" then jsTrim t else determineActionTail e
      | none => determineActionTail e
    | none => determineActionTail e
  else determineActionTail e

/-! ## Classifier: `determineContext` -/

/-- Trimmed, lowercased heading text with internal whitespace runs collapsed
to single hyphens (`.replace(/\s+/g, "-")` after `trim().toLowerCase()`). -/
def headingSlug (t : String) : String :=
  String.mk (collapseWsAux false (jsToLower (jsTrim t)).data)

/-- The context signal one ancestor yields inside `determineContext`'s walk:
tag checks first, then class-substring checks in source order, then the
heading rule; `none` when the ancestor yields nothing. -/
def ancestorSignal (p : Ancestor) : Option String :=
  let parentTag := jsToLower p.tagName
  if parentTag = "header" then some "header"
  else if parentTag = "footer" then some "footer"
  else if parentTag = "nav" then some "navigation"
  else if parentTag = "aside" then some "sidebar"
  else
    let classes := jsToLower p.className
    if containsSubstring classes "footer" then some "footer"
    else if containsSubstring classes "hero" then some "hero"
    else if containsSubstring classes "header" then some "header"
    else if containsSubstring classes "sidebar" then some "sidebar"
    else if containsSubstring classes "nav" then some "navigation"
    else
      match p.heading with
      | some t => if t ≠ "" then some (headingSlug t) else none
      | none => none

/-- The upward walk of `determineContext` over the parent chain: the first
ancestor producing a signal wins; with no signal the walk continues unless
the just-inspected ancestor is `document.body` (the loop guard
`current !== document.body` then fails) and stops with no parent left. -/
def contextWalk : List Ancestor → Option String
  | [] => none
  | p :: rest =>
    match ancestorSignal p with
    | some c => some c
    | none => if p.isBody then none else contextWalk rest

/-- `determineContext`: the walk result, refined for `hero`/`header`/`footer`
by absolute page position (rect top/bottom plus scroll offset against the
max of the two scroll heights): `hero`/`header` are dropped when the
absolute top exceeds a quarter of the page height, `footer` when the
absolute bottom is below three quarters; a dropped or missing signal
becomes `"main-content"`.  When the element itself is `document.body` the
walk never runs. -/
def determineContext (e : Elem) : String :=
  let context0 : Option String := if e.isBodyElem then none else contextWalk e.ancestors
  let context2 : Option String :=
    if context0 = some "hero" || context0 = some "header" || context0 = some "footer" then
      let absoluteTop := e.geom.rectTop + e.geom.pageYOffset
      let absoluteBottom := e.geom.rectBottom + e.geom.pageYOffset
      let pageHeight := max e.geom.docScrollHeight e.geom.bodyScrollHeight
      let context1 : Option String :=
        if (context0 = some "hero" || context0 = some "header") &&
            absoluteTop > pageHeight * (1 / 4 : ℚ) then none
        else context0
      if context1 = some "footer" && absoluteBottom < pageHeight * (3 / 4 : ℚ) then none
      else context1
    else context0
  context2.getD "main-content"

/-! ## Classifier: `determineValue` -/

/-- Whether JS `parseFloat(s)` returns `NaN`: it does unless, after an
optional sign, the string starts with a digit, a dot followed by a digit,
or `Infinity`.  (Everything past that leading prefix only affects the
parsed value, never NaN-ness.) -/
def floatStart : List Char → Bool
  | [] => false
  | c :: rest =>
    c.isDigit ||
    (c = '.' && (match rest with | d :: _ => d.isDigit | [] => false)) ||
    (c = 'I' && "Infinity".toList.isPrefixOf (c :: rest))

/-- `parseFloat(s)` succeeds (is not NaN): leading whitespace is skipped,
then an optional sign, then a digit / dot-digit / `Infinity` start. -/
def jsParseFloatOk (s : String) : Bool :=
  match s.toList.dropWhile Char.isWhitespace with
  | [] => false
  | c :: rest => if c = '+' || c = '-' then floatStart rest else floatStart (c :: rest)

/-- The `isValidNumber` helper in `determineValue`: non-empty after trim and
`parseFloat` does not yield NaN. -/
def isValidNumber (value : String) : Bool :=
  let trimmed := jsTrim value
  trimmed ≠ "" && jsParseFloatOk trimmed

/-- `classList.contains(c)`: the class attribute split on whitespace
contains the token. -/
def classListContains (e : Elem) (c : String) : Bool :=
  (classTokens e.className).contains c

/-- The shared "is marked selected" test of `determineValue`'s custom
dropdown branches: `aria-selected="true"` or a `selected`/`active` class. -/
def markedSelected (e : Elem) : Bool :=
  getAttr e "aria-selected" = some "true" ||
  classListContains e "selected" || classListContains e "active"

/-- `determineValue`: a numeric string or `none` ("not applicable") —
`input[type=number]` by its current value; `select` only when every option
value is empty-or-numeric and the selected value is truthy and numeric;
`li` under `ul[role=presentation]` marked selected with a truthy numeric
`data-value`; `div`/`span` with `role="option"` marked selected with truthy
numeric trimmed text; otherwise `none`. -/
def determineValue (e : Elem) : Option String :=
  let tag := jsToLower e.tagName
  let inputType := (getAttr e "type").getD ""
  if tag = "input" && inputType = "number" then
    if isValidNumber e.value then some (jsTrim e.value) else none
  else if tag = "select" then
    let allNumeric := e.options.all (fun o => o.value = "" || isValidNumber o.value)
    if allNumeric && e.value ≠ "" && isValidNumber e.value then some (jsTrim e.value) else none
  else if tag = "li" then
    match e.parent with
    | some p =>
      if jsToLower p.tagName = "ul" && p.roleAttr = some "presentation" then
        if markedSelected e then
          match getAttr e "data-value" with
          | some dv => if dv ≠ "" && isValidNumber dv then some (jsTrim dv) else none
          | none => none
        else none
      else none
    | none => none
  else if (tag = "div" || tag = "span") && getAttr e "role" = some "option" then
    if markedSelected e then
      match e.textContent.map jsTrim with
      | some tc => if tc ≠ "" && isValidNumber tc then some tc else none
      | none => none
    else none
  else none

/-! ## Tagging protocol (`tagElement`, `isElementTagged`, `getTaggedElement`) -/

/-- The record `tagElement` returns (`TaggedElement` in `types.ts`, minus
the live element reference, which our `tagElement` returns alongside). -/
structure TaggedValues where
  type : String
  action : String
  context : String
  value : String
deriving DecidableEq, Repr

/-- `isElementTagged`: the element carries all three mandatory attributes
(type, action, context) under their configured names. -/
def isElementTagged (cfg : ResolvedConfig) (e : Elem) : Bool :=
  hasAttr e cfg.attributes.type && hasAttr e cfg.attributes.action &&
  hasAttr e cfg.attributes.context

/-- `getTaggedElement`: read the four configured attributes back, `""` for a
missing one. -/
def getTaggedElement (cfg : ResolvedConfig) (e : Elem) : TaggedValues :=
  { type := (getAttr e cfg.attributes.type).getD "",
    action := (getAttr e cfg.attributes.action).getD "",
    context := (getAttr e cfg.attributes.context).getD "",
    value := (getAttr e cfg.attributes.value).getD "" }

/-- The write pattern of `tagElement`:
`if (!element.hasAttribute(k)) element.setAttribute(k, v)`. -/
def setIfMissing (e : Elem) (k v : String) : Elem :=
  if !hasAttr e k then setAttr e k v else e

/-- `tagElement` (the non-throwing execution; its catch clause is modelled
separately for the fault-injected semantics): an already-tagged element is
returned as read back; otherwise the four values are inferred and each of
the four attributes is written only when not already present (`value` also
only when inferred). -/
def tagElement (cfg : ResolvedConfig) (e : Elem) : Elem × TaggedValues :=
  if isElementTagged cfg e then (e, getTaggedElement cfg e)
  else
    let ty := determineType e
    let act := determineAction e
    let ctx := determineContext e
    let v := determineValue e
    let e1 := setIfMissing e cfg.attributes.type ty
    let e2 := setIfMissing e1 cfg.attributes.action act
    let e3 := setIfMissing e2 cfg.attributes.context ctx
    let e4 :=
      match v with
      | some vv => setIfMissing e3 cfg.attributes.value vv
      | none => e3
    (e4, { type := ty, action := act, context := ctx, value := v.getD "" })

/-! ## Change handling (`handleChange` and its two refreshers) -/

/-- `updateNumberInputValue`: write the input's trimmed current value to the
configured value attribute whenever it is non-empty (no numeric check, no
clearing on empty). -/
def updateNumberInputValue (cfg : ResolvedConfig) (e : Elem) : Elem :=
  let v := jsTrim e.value
  if v ≠ "" then setAttr e cfg.attributes.value v else e

/-- `updateSelectAction`: when `selectedOptions[0]` exists with truthy
`textContent`, unconditionally overwrite the configured action attribute
with the trimmed text. -/
def updateSelectAction (cfg : ResolvedConfig) (e : Elem) : Elem :=
  match e.selectedOption with
  | some o =>
    match o.textContent with
    | some t => if t ≠ "" then setAttr e cfg.attributes.action (jsTrim t) else e
    | none => e
  | none => e

/-- `handleChange`: a `select` target gets its action refreshed; an
`input[type=number]` target gets its value refreshed. -/
def handleChange (cfg : ResolvedConfig) (e : Elem) : Elem :=
  let e1 := if jsToLower e.tagName = "select" then updateSelectAction cfg e else e
  if jsToLower e1.tagName = "input" && getAttr e1 "type" = some "number" then
    updateNumberInputValue cfg e1
  else e1

/-! ## Fault-injected semantics for `init` (claim C10)

Runtime exceptions are modelled by an oracle saying which primitive DOM/host
operations throw; fallible computations live in `Except`.  An error from an
attribute write carries the element state at the point of the throw, since a
JS exception leaves earlier mutations in place. -/

/-- Which primitive operations throw during `init`. -/
structure FaultModel where
  attrWriteThrows : Elem → String → Bool
  queryThrows : Bool
  clickListenerThrows : Bool
  changeListenerThrows : Bool
  sinkPushThrows : Bool
  clockThrows : Bool

/-- `element.setAttribute` under the fault oracle. -/
def setAttrE (fm : FaultModel) (e : Elem) (n v : String) : Except (String × Elem) Elem :=
  if fm.attrWriteThrows e n then Except.error ("DOM Error", e) else Except.ok (setAttr e n v)

/-- `setIfMissing` under the fault oracle. -/
def setIfMissingE (fm : FaultModel) (e : Elem) (k v : String) : Except (String × Elem) Elem :=
  if !hasAttr e k then setAttrE fm e k v else Except.ok e

/-- The body of `tagElement` under the fault oracle (everything inside its
try block; the classifier calls are total because each classifier catches
internally). -/
def tagElementBodyE (fm : FaultModel) (cfg : ResolvedConfig) (e : Elem) :
    Except (String × Elem) (Elem × TaggedValues) :=
  if isElementTagged cfg e then Except.ok (e, getTaggedElement cfg e)
  else
    let ty := determineType e
    let act := determineAction e
    let ctx := determineContext e
    let v := determineValue e
    (setIfMissingE fm e cfg.attributes.type ty).bind fun e1 =>
      (setIfMissingE fm e1 cfg.attributes.action act).bind fun e2 =>
        (setIfMissingE fm e2 cfg.attributes.context ctx).bind fun e3 =>
          (match v with
            | some vv => setIfMissingE fm e3 cfg.attributes.value vv
            | none => Except.ok e3).bind fun e4 =>
            Except.ok (e4, { type := ty, action := act, context := ctx, value := v.getD "" })

/-- `tagElement` with its catch clause: a throw yields the fallback record
(lowercase tag, `unknown-element`, `main-content`, empty value) and leaves
the element with whatever writes happened before the throw. -/
def tagElementCaught (fm : FaultModel) (cfg : ResolvedConfig) (e : Elem) : Elem × TaggedValues :=
  match tagElementBodyE fm cfg e with
  | Except.ok r => r
  | Except.error (_, eAtThrow) =>
    (eAtThrow,
      { type := jsToLower eAtThrow.tagName, action := "unknown-element",
        context := "main-content", value := "" })

/-- `forEach` over a fallible per-node action: an uncaught error aborts the
remaining iterations (as a JS exception would). -/
def runForEach (f : Node → Except String Node) : List Node → Except String (List Node)
  | [] => Except.ok []
  | n :: rest =>
    (f n).bind fun n2 => (runForEach f rest).bind fun rest2 => Except.ok (n2 :: rest2)

/-- The per-node action of the bulk pass: element nodes are tagged through
the caught `tagElement` (hence never an error); other nodes are skipped
(`element instanceof HTMLElement` fails). -/
def tagNode (fm : FaultModel) (cfg : ResolvedConfig) (n : Node) : Node :=
  match n with
  | Node.elem e => Node.elem (tagElementCaught fm cfg e).1
  | Node.other => n

/-- `tagNode` as the fallible action handed to `forEach`. -/
def tagNodeE (fm : FaultModel) (cfg : ResolvedConfig) (n : Node) : Except String Node :=
  Except.ok (tagNode fm cfg n)

/-- `tagExistingElements`, whose own try/catch covers the query and the
whole `forEach` loop: `nodes` stands for the elements `querySelectorAll`
returns (selector matching is a host capability); when the query throws
nothing is tagged, and an error escaping the loop would leave the rest
untagged (the theorem shows this branch is unreachable). -/
def tagExistingElementsE (fm : FaultModel) (cfg : ResolvedConfig) (nodes : List Node) : List Node :=
  if fm.queryThrows then nodes
  else
    match runForEach (tagNodeE fm cfg) nodes with
    | Except.ok out => out
    | Except.error _ => nodes

/-- `PagePerformanceMetrics` from `types.ts` (times in ms, memory in MB). -/
structure PagePerformanceMetrics where
  init_time_ms : ℚ
  total_elements_tagged : Nat
  total_page_memory_mb : ℚ
  timestamp : Int
deriving DecidableEq, Repr

/-- An analytics-sink record: the performance event or a click event. -/
inductive SinkEvent where
  | perfEvent (performance : PagePerformanceMetrics) (timestamp : Int)
  | clickEvent (clickObject : AnalyticsData) (timestamp : Int)
deriving DecidableEq, Repr

/-- `Math.round(x * 100) / 100` (two-decimal rounding). -/
def jsRound2 (q : ℚ) : ℚ := (⌊q * 100 + 1 / 2⌋ : ℚ) / 100

/-- Host readings taken during `init`: the two `performance.now()` calls,
the optional JS heap size, and `Date.now()`. -/
structure InitEnv where
  startTime : ℚ
  endTime : ℚ
  usedJSHeapBytes : Option ℚ
  nowMs : Int

/-- `getMemoryUsage`: heap bytes converted to MB and rounded, `0` when the
memory API is absent. -/
def getMemoryUsage (env : InitEnv) : ℚ :=
  match env.usedJSHeapBytes with
  | some b => jsRound2 (b / 1024 / 1024)
  | none => 0

/-- `getTaggedElements().length`: how many matching element nodes satisfy
the tagged predicate. -/
def countTagged (cfg : ResolvedConfig) (nodes : List Node) : Nat :=
  (nodes.filter fun n =>
    match n with
    | Node.elem e => isElementTagged cfg e
    | Node.other => false).length

/-- The state `init` leaves behind: the element list after bulk tagging,
the captured snapshot, the sink contents, and which listeners installed. -/
structure InitState where
  dom : List Node
  metrics : Option PagePerformanceMetrics
  sink : List SinkEvent
  clickInstalled : Bool
  changeInstalled : Bool

/-- The body of `init` (inside its try block).  The first `performance.now()`
is the one step whose failure escapes to `init`'s catch; every later step is
total because each callee (`tagExistingElements`, the listener setups,
`getMemoryUsage`, `pushPerformanceEvent`) catches internally. -/
def initBodyE (fm : FaultModel) (env : InitEnv) (cfg : ResolvedConfig) (nodes : List Node) :
    Except String InitState :=
  if fm.clockThrows then Except.error "performance unavailable"
  else
    let dom := tagExistingElementsE fm cfg nodes
    let click := !fm.clickListenerThrows
    let change := !fm.changeListenerThrows
    let m : PagePerformanceMetrics :=
      { init_time_ms := jsRound2 (env.endTime - env.startTime),
        total_elements_tagged := countTagged cfg dom,
        total_page_memory_mb := getMemoryUsage env,
        timestamp := env.nowMs }
    let sink : List SinkEvent :=
      if fm.sinkPushThrows then [] else [SinkEvent.perfEvent m env.nowMs]
    Except.ok
      { dom := dom, metrics := some m, sink := sink,
        clickInstalled := click, changeInstalled := change }

/-- `init` with its catch clause: an exception is logged and swallowed, so
the caller always gets a normal return (`Except.ok`); a throw from the very
first step leaves everything untouched. -/
def init (fm : FaultModel) (env : InitEnv) (cfg : ResolvedConfig) (nodes : List Node) :
    Except String InitState :=
  match initBodyE fm env cfg nodes with
  | Except.ok s => Except.ok s
  | Except.error _ =>
    Except.ok
      { dom := nodes, metrics := none, sink := [],
        clickInstalled := false, changeInstalled := false }

/-! ## Attribute-list lemmas -/

theorem getAttrList_set_self (l : List (String × String)) (k v : String) :
    getAttrList (setAttrList l k v) k = some v := by
  induction l with
  | nil => simp [setAttrList, getAttrList]
  | cons hd t ih =>
    obtain ⟨k1, v1⟩ := hd
    by_cases hk : k1 = k
    · simp [setAttrList, hk, getAttrList]
    · simp [setAttrList, hk, getAttrList, ih]

theorem getAttrList_set_ne (l : List (String × String)) (k v n : String) (h : n ≠ k) :
    getAttrList (setAttrList l k v) n = getAttrList l n := by
  induction l with
  | nil => simp [setAttrList, getAttrList, Ne.symm h]
  | cons hd t ih =>
    obtain ⟨k1, v1⟩ := hd
    by_cases hk : k1 = k
    · subst hk
      simp [setAttrList, getAttrList, Ne.symm h]
    · simp [setAttrList, hk, getAttrList, ih]

theorem getAttr_setAttr_self (e : Elem) (k v : String) :
    getAttr (setAttr e k v) k = some v :=
  getAttrList_set_self e.attrs k v

theorem getAttr_setAttr_ne (e : Elem) (k v n : String) (h : n ≠ k) :
    getAttr (setAttr e k v) n = getAttr e n :=
  getAttrList_set_ne e.attrs k v n h

theorem getAttr_setIfMissing_ne (e : Elem) (k v n : String) (h : n ≠ k) :
    getAttr (setIfMissing e k v) n = getAttr e n := by
  unfold setIfMissing
  split
  · exact getAttr_setAttr_ne e k v n h
  · rfl

theorem hasAttr_setIfMissing_self (e : Elem) (k v : String) :
    hasAttr (setIfMissing e k v) k = true := by
  unfold setIfMissing
  by_cases hk : hasAttr e k
  · simp [hk]
  · simp only [hk, Bool.not_false, if_true]
    simp [hasAttr, getAttr_setAttr_self]

theorem hasAttr_setIfMissing_mono (e : Elem) (k v n : String) (h : hasAttr e n = true) :
    hasAttr (setIfMissing e k v) n = true := by
  by_cases hk : n = k
  · subst hk
    exact hasAttr_setIfMissing_self e n v
  · unfold hasAttr
    rw [getAttr_setIfMissing_ne e k v n hk]
    exact h

theorem getAttr_setIfMissing_existing (e : Elem) (k v n w : String)
    (h : getAttr e n = some w) : getAttr (setIfMissing e k v) n = some w := by
  by_cases hk : n = k
  · subst hk
    have hh : hasAttr e n = true := by simp [hasAttr, h]
    unfold setIfMissing
    simp [hh, h]
  · rw [getAttr_setIfMissing_ne e k v n hk]
    exact h

/-! ## Foldl lemmas for the extraction walk -/

theorem extractStep_action (acc : AnalyticsData × Bool) (n : Node) :
    (extractStep acc n).1.action =
      (match n with
        | Node.elem e =>
          if truthy (getAttr e "data-action") then getAttr e "data-action" else acc.1.action
        | Node.other => acc.1.action) := by
  cases n with
  | other => rfl
  | elem e =>
    by_cases ha : truthy (getAttr e "data-action") <;>
      by_cases hc : truthy (getAttr e "data-context") <;>
        simp [extractStep, ha, hc]

theorem extractStep_context (acc : AnalyticsData × Bool) (n : Node) :
    (extractStep acc n).1.context =
      (match n with
        | Node.elem e =>
          if truthy (getAttr e "data-context") then getAttr e "data-context" else acc.1.context
        | Node.other => acc.1.context) := by
  cases n with
  | other => rfl
  | elem e =>
    by_cases ha : truthy (getAttr e "data-action") <;>
      by_cases hc : truthy (getAttr e "data-context") <;>
        simp [extractStep, ha, hc]

theorem foldl_extractStep_action (nodes : List Node) (acc : AnalyticsData × Bool) :
    ((nodes.foldl extractStep acc).1).action =
      (lastTruthyAttr "data-action" nodes).or acc.1.action := by
  induction nodes generalizing acc with
  | nil => simp [lastTruthyAttr, Option.or]
  | cons n rest ih =>
    rw [List.foldl_cons, ih]
    cases hl : lastTruthyAttr "data-action" rest with
    | some v => simp [lastTruthyAttr, hl, Option.or]
    | none =>
      rw [extractStep_action acc n]
      cases n with
      | other => simp [lastTruthyAttr, hl, Option.or]
      | elem e =>
        cases hga : getAttr e "data-action" with
        | none => simp [lastTruthyAttr, hl, hga, truthy, Option.or]
        | some s =>
          by_cases hs : s = "" <;>
            simp [lastTruthyAttr, hl, hga, truthy, hs, Option.or]

theorem foldl_extractStep_context (nodes : List Node) (acc : AnalyticsData × Bool) :
    ((nodes.foldl extractStep acc).1).context =
      (lastTruthyAttr "data-context" nodes).or acc.1.context := by
  induction nodes generalizing acc with
  | nil => simp [lastTruthyAttr, Option.or]
  | cons n rest ih =>
    rw [List.foldl_cons, ih]
    cases hl : lastTruthyAttr "data-context" rest with
    | some v => simp [lastTruthyAttr, hl, Option.or]
    | none =>
      rw [extractStep_context acc n]
      cases n with
      | other => simp [lastTruthyAttr, hl, Option.or]
      | elem e =>
        cases hgc : getAttr e "data-context" with
        | none => simp [lastTruthyAttr, hl, hgc, truthy, Option.or]
        | some s =>
          by_cases hs : s = "" <;>
            simp [lastTruthyAttr, hl, hgc, truthy, hs, Option.or]

/-! ## Claim C1 -/

/-- Claim C1, counterexample: the clicked element itself carries the
non-empty `data-action` value `inner` — it is the first visited node
exposing a non-empty action/context attribute — yet the emitted payload's
action is `outer`, taken from the higher ancestor visited later, so a later
visited node does change the payload. -/
theorem c1_counterexample :
    getAttr (mkElem [("data-action", "inner")]) "data-action" = some "inner" ∧
    extractAndPushAnalytics
        [Node.elem (mkElem [("data-action", "inner")]),
         Node.elem (mkElem [("data-action", "outer")])] =
      some { action := some "outer" } :=
  ⟨by decide, by decide⟩

/-- Claim C1, amended: within the 10-node window, every visited node with a
non-empty `data-action` (resp. `data-context`) overwrites the payload's
action (resp. context), so the emitted payload carries each field from the
last (highest) visited node exposing it, the two fields being tracked
independently. -/
theorem c1_last_wins (chain : List Node) (obj : AnalyticsData)
    (h : extractAndPushAnalytics chain = some obj) :
    obj.action = lastTruthyAttr "data-action" (chain.take maxTraversalDepth) ∧
    obj.context = lastTruthyAttr "data-context" (chain.take maxTraversalDepth) := by
  unfold extractAndPushAnalytics at h
  by_cases hflag : ((chain.take maxTraversalDepth).foldl extractStep ({}, false)).2
  · simp only [hflag, if_true, Option.some.injEq] at h
    subst h
    constructor
    · rw [foldl_extractStep_action]
      cases lastTruthyAttr "data-action" (chain.take maxTraversalDepth) <;> rfl
    · rw [foldl_extractStep_context]
      cases lastTruthyAttr "data-context" (chain.take maxTraversalDepth) <;> rfl
  · simp [hflag] at h

/-- Witness for C1's amended theorem at the two-node chain of the
counterexample. -/
theorem c1_last_wins_witness :
    (({ action := some "outer" } : AnalyticsData).action =
      lastTruthyAttr "data-action"
        (([Node.elem (mkElem [("data-action", "inner")]),
           Node.elem (mkElem [("data-action", "outer")])]).take maxTraversalDepth)) ∧
    (({ action := some "outer" } : AnalyticsData).context =
      lastTruthyAttr "data-context"
        (([Node.elem (mkElem [("data-action", "inner")]),
           Node.elem (mkElem [("data-action", "outer")])]).take maxTraversalDepth)) :=
  c1_last_wins _ _ (by decide)

/-! ## Claim C2 -/

/-- Claim C2: the payload-building walk never looks past the first
`maxTraversalDepth` (= 10) nodes of the chain — the emitted payload for any
chain equals that for its 10-node prefix, and appending anything below a
10-node prefix changes nothing; the walk also ends at the end of the chain
(no parent left). -/
theorem c2_depth_limit :
    (∀ chain : List Node,
      extractAndPushAnalytics chain =
        extractAndPushAnalytics (chain.take maxTraversalDepth)) ∧
    (∀ pre rest : List Node, pre.length = maxTraversalDepth →
      extractAndPushAnalytics (pre ++ rest) = extractAndPushAnalytics pre) := by
  constructor
  · intro chain
    unfold extractAndPushAnalytics
    rw [List.take_take, min_self]
  · intro pre rest h
    unfold extractAndPushAnalytics
    rw [← h, List.take_left, List.take_length]

/-- Witness for C2 at a 10-node chain with an analytics-bearing 11th node:
the payload ignores the `data-action` at depth 11. -/
theorem c2_depth_limit_witness :
    extractAndPushAnalytics
        (List.replicate 10 (Node.elem (mkElem [])) ++
          [Node.elem (mkElem [("data-action", "deep")])]) =
      extractAndPushAnalytics (List.replicate 10 (Node.elem (mkElem []))) :=
  c2_depth_limit.2 _ _ (by decide)

/-! ## Claim C3 -/

/-- The four attribute names `extractAndPushAnalytics` reads, as string
literals in its body. -/
def litNames : List String := ["data-action", "data-context", "data-type", "data-value"]

/-- Everything the extraction walk reads from one node: whether it is an
element node and, if so, the values of the four literal-named attributes. -/
def litView (n : Node) : Option (Option String × Option String × Option String × Option String) :=
  match n with
  | Node.elem e =>
    some (getAttr e "data-action", getAttr e "data-context",
          getAttr e "data-type", getAttr e "data-value")
  | Node.other => none

theorem extractStep_litView (acc : AnalyticsData × Bool) (n m : Node)
    (h : litView n = litView m) : extractStep acc n = extractStep acc m := by
  cases n with
  | other =>
    cases m with
    | other => rfl
    | elem e => simp [litView] at h
  | elem e =>
    cases m with
    | other => simp [litView] at h
    | elem f =>
      simp only [litView, Option.some.injEq, Prod.mk.injEq] at h
      obtain ⟨h1, h2, h3, h4⟩ := h
      simp [extractStep, h1, h2, h3, h4]

theorem foldl_extractStep_litView (l1 l2 : List Node)
    (h : l1.map litView = l2.map litView) (acc : AnalyticsData × Bool) :
    l1.foldl extractStep acc = l2.foldl extractStep acc := by
  induction l1 generalizing l2 acc with
  | nil =>
    cases l2 with
    | nil => rfl
    | cons m t2 => simp at h
  | cons n t ih =>
    cases l2 with
    | nil => simp at h
    | cons m t2 =>
      simp only [List.map_cons, List.cons.injEq] at h
      rw [List.foldl_cons, List.foldl_cons, extractStep_litView acc n m h.1, ih t2 h.2]

/-- Claim C3: the click-time extraction depends only on the literal
attribute names `data-action`/`data-context`/`data-type`/`data-value` of
the visited nodes (first conjunct), and it is not parameterised by the
configuration at all — so an element that carries no literal-named
attribute yields no payload even right after being tagged under a
configuration whose four attribute names all differ from the literals:
the values written by tagging are never captured (second conjunct). -/
theorem c3_literal_names :
    (∀ c1 c2 : List Node, c1.map litView = c2.map litView →
      extractAndPushAnalytics c1 = extractAndPushAnalytics c2) ∧
    (∀ (cfg : ResolvedConfig) (e : Elem),
      cfg.attributes.type ∉ litNames → cfg.attributes.action ∉ litNames →
      cfg.attributes.context ∉ litNames → cfg.attributes.value ∉ litNames →
      (∀ nm ∈ litNames, getAttr e nm = none) →
      extractAndPushAnalytics [Node.elem (tagElement cfg e).1] = none) := by
  constructor
  · intro c1 c2 h
    unfold extractAndPushAnalytics
    rw [foldl_extractStep_litView (c1.take maxTraversalDepth) (c2.take maxTraversalDepth)
      (by rw [List.map_take, List.map_take, h])]
  · intro cfg e hty hact hctx hval hclean
    have hkeep : ∀ nm ∈ litNames, getAttr (tagElement cfg e).1 nm = getAttr e nm := by
      intro nm hnm
      have hn1 : nm ≠ cfg.attributes.type := fun hh => hty (hh ▸ hnm)
      have hn2 : nm ≠ cfg.attributes.action := fun hh => hact (hh ▸ hnm)
      have hn3 : nm ≠ cfg.attributes.context := fun hh => hctx (hh ▸ hnm)
      have hn4 : nm ≠ cfg.attributes.value := fun hh => hval (hh ▸ hnm)
      unfold tagElement
      split
      · rfl
      · cases hv : determineValue e <;>
          simp [hv, getAttr_setIfMissing_ne _ _ _ _ hn1, getAttr_setIfMissing_ne _ _ _ _ hn2,
            getAttr_setIfMissing_ne _ _ _ _ hn3, getAttr_setIfMissing_ne _ _ _ _ hn4]
    have h1 : getAttr (tagElement cfg e).1 "data-action" = none := by
      rw [hkeep _ (by decide)]
      exact hclean _ (by decide)
    have h2 : getAttr (tagElement cfg e).1 "data-context" = none := by
      rw [hkeep _ (by decide)]
      exact hclean _ (by decide)
    unfold extractAndPushAnalytics
    simp [maxTraversalDepth, extractStep, h1, h2, truthy]

/-- Witness for C3 with a configuration renaming all four attributes to
`x-`-prefixed names and a bare element: its parts are discharged at a
concrete chain and a concrete element. -/
theorem c3_literal_names_witness :
    (extractAndPushAnalytics [Node.elem (mkElem [("x-action", "Buy")])] =
      extractAndPushAnalytics [Node.elem (mkElem [("id", "b1"), ("x-action", "old")])]) ∧
    extractAndPushAnalytics
        [Node.elem
          (tagElement
            (mkConfig
              { attributes :=
                  some { type := some "x-type", action := some "x-action",
                         context := some "x-context", value := some "x-value" } })
            (mkElem [])).1] = none :=
  ⟨c3_literal_names.1 _ _ (by decide),
   c3_literal_names.2 _ _ (by decide) (by decide) (by decide) (by decide)
     (by intro nm hnm; fin_cases hnm <;> decide)⟩

/-! ## Claim C4 -/

/-- Claim C4, counterexample: an `<input type="number">` tagged with
`data-value="42"` whose current value is `"abc"` has its `data-value`
overwritten to `"abc"` by the change handler — `"abc"` is non-empty, so
the refresh applies and does not leave `"42"` in place. -/
theorem c4_counterexample :
    getAttr ({ mkElem [("type", "number"), ("data-value", "42")] with tagName := "INPUT", value := "abc" } : Elem) "data-value" = some "42" ∧
    getAttr
        (handleChange defaultConfig
          { mkElem [("type", "number"), ("data-value", "42")] with tagName := "INPUT", value := "abc" })
        "data-value" = some "abc" :=
  ⟨by decide, by decide⟩

/-- Claim C4, amended: on a change event for a numeric input the handler
overwrites the value attribute with the new trimmed value whenever that
value is non-empty — numeric or not (so `"abc"` replaces `"42"`) — and
leaves the attribute untouched only when the trimmed value is empty. -/
theorem c4_refresh_overwrites (cfg : ResolvedConfig) (e : Elem)
    (htag : jsToLower e.tagName = "input") (hty : getAttr e "type" = some "number") :
    getAttr (handleChange cfg e) cfg.attributes.value =
      (if jsTrim e.value = "" then getAttr e cfg.attributes.value
       else some (jsTrim e.value)) := by
  have hsel : ¬ (jsToLower e.tagName = "select") := by
    rw [htag]
    decide
  unfold handleChange
  simp only [hsel, if_false, htag, hty, decide_True, Bool.and_self, if_true,
    updateNumberInputValue]
  by_cases hv : jsTrim e.value = ""
  · simp [hv, htag, hty]
  · simp [hv, htag, hty, getAttr_setAttr_self]

/-- Witness for C4's amended theorem at the counterexample input. -/
theorem c4_refresh_overwrites_witness :
    getAttr
        (handleChange defaultConfig
          { mkElem [("type", "number"), ("data-value", "42")] with tagName := "INPUT", value := "abc" })
        defaultConfig.attributes.value =
      (if jsTrim ({ mkElem [("type", "number"), ("data-value", "42")] with tagName := "INPUT", value := "abc" } : Elem).value = ""
       then getAttr ({ mkElem [("type", "number"), ("data-value", "42")] with tagName := "INPUT", value := "abc" } : Elem) defaultConfig.attributes.value
       else some (jsTrim ({ mkElem [("type", "number"), ("data-value", "42")] with tagName := "INPUT", value := "abc" } : Elem).value)) :=
  c4_refresh_overwrites _ _ (by decide) (by decide)

/-! ## Claim C5 -/

/-- Claim C5: tagging is idempotent and additive-only — an element already
carrying the three mandatory attributes is returned as a read-back no-op;
tagging an element a second time is a no-op on the element and returns the
read-back of the attributes the first pass left; and no attribute present
before tagging is ever overwritten by the initial-tag path. -/
theorem c5_tagging_idempotent (cfg : ResolvedConfig) (e : Elem) :
    (isElementTagged cfg e = true → tagElement cfg e = (e, getTaggedElement cfg e)) ∧
    tagElement cfg ((tagElement cfg e).1) =
      ((tagElement cfg e).1, getTaggedElement cfg ((tagElement cfg e).1)) ∧
    (∀ k w, getAttr e k = some w → getAttr (tagElement cfg e).1 k = some w) := by
  have htag : ∀ e2 : Elem, isElementTagged cfg e2 = true →
      tagElement cfg e2 = (e2, getTaggedElement cfg e2) := by
    intro e2 h2
    unfold tagElement
    simp [h2]
  refine ⟨htag e, ?_, ?_⟩
  · have hafter : isElementTagged cfg ((tagElement cfg e).1) = true := by
      by_cases h : isElementTagged cfg e = true
      · rw [htag e h]
        exact h
      · unfold tagElement
        simp only [h, if_false]
        cases hv : determineValue e with
        | some vv =>
          simp only [hv, isElementTagged]
          rw [Bool.and_eq_true, Bool.and_eq_true]
          refine ⟨⟨?_, ?_⟩, ?_⟩
          · exact hasAttr_setIfMissing_mono _ _ _ _
              (hasAttr_setIfMissing_mono _ _ _ _
                (hasAttr_setIfMissing_mono _ _ _ _ (hasAttr_setIfMissing_self _ _ _)))
          · exact hasAttr_setIfMissing_mono _ _ _ _
              (hasAttr_setIfMissing_mono _ _ _ _ (hasAttr_setIfMissing_self _ _ _))
          · exact hasAttr_setIfMissing_mono _ _ _ _ (hasAttr_setIfMissing_self _ _ _)
        | none =>
          simp only [hv, isElementTagged]
          rw [Bool.and_eq_true, Bool.and_eq_true]
          refine ⟨⟨?_, ?_⟩, ?_⟩
          · exact hasAttr_setIfMissing_mono _ _ _ _
              (hasAttr_setIfMissing_mono _ _ _ _ (hasAttr_setIfMissing_self _ _ _))
          · exact hasAttr_setIfMissing_mono _ _ _ _ (hasAttr_setIfMissing_self _ _ _)
          · exact hasAttr_setIfMissing_self _ _ _
    exact htag _ hafter
  · intro k w hk
    by_cases h : isElementTagged cfg e = true
    · rw [htag e h]
      exact hk
    · unfold tagElement
      simp only [h, if_false]
      cases hv : determineValue e with
      | some vv =>
        simp only [hv]
        exact getAttr_setIfMissing_existing _ _ _ _ _
          (getAttr_setIfMissing_existing _ _ _ _ _
            (getAttr_setIfMissing_existing _ _ _ _ _
              (getAttr_setIfMissing_existing _ _ _ _ _ hk)))
      | none =>
        simp only [hv]
        exact getAttr_setIfMissing_existing _ _ _ _ _
          (getAttr_setIfMissing_existing _ _ _ _ _
            (getAttr_setIfMissing_existing _ _ _ _ _ hk))

/-- Witness for C5 at a fully pre-tagged element (with an extra unrelated
attribute): the no-op branch, the re-tag no-op, and preservation of the
pre-existing attribute are all discharged concretely. -/
theorem c5_tagging_idempotent_witness :
    tagElement defaultConfig
        (mkElem [("data-type", "x"), ("data-action", "y"), ("data-context", "z"), ("id", "seven")]) =
      (mkElem [("data-type", "x"), ("data-action", "y"), ("data-context", "z"), ("id", "seven")],
        getTaggedElement defaultConfig
          (mkElem [("data-type", "x"), ("data-action", "y"), ("data-context", "z"), ("id", "seven")])) ∧
    getAttr
        (tagElement defaultConfig
          (mkElem [("data-type", "x"), ("data-action", "y"), ("data-context", "z"), ("id", "seven")])).1
        "id" = some "seven" :=
  ⟨(c5_tagging_idempotent defaultConfig _).1 (by decide),
   (c5_tagging_idempotent defaultConfig _).2.2 "id" "seven" (by decide)⟩

/-! ## Claim C6 -/

/-- A supplied attribute-name entry is either absent or a non-empty string. -/
def optNonEmpty : Option String → Bool
  | none => true
  | some s => s ≠ ""

/-- Every explicitly supplied attribute name in the constructor argument is
non-empty. -/
def suppliedNamesNonEmpty : Option AttrConfig → Bool
  | none => true
  | some a =>
    optNonEmpty a.type && optNonEmpty a.action && optNonEmpty a.context && optNonEmpty a.value

/-- Claim C6, counterexample: a configuration supplying the empty string for
the type role resolves that role to the empty string — the spread merge
keeps the supplied empty value rather than restoring the default, so the
claimed invariant fails for empty-string overrides. -/
theorem c6_counterexample :
    (mkConfig { attributes := some { type := some "" } }).attributes.type = "" := rfl

/-- Claim C6, amended: the merge is per-key over the defaults (an absent
`attributes` object keeps all defaults; a supplied object keeps the default
for each absent key and takes the supplied value for each present key), and
all four roles resolve to non-empty names provided every explicitly
supplied name is non-empty — a supplied empty string, however, does
override the default and yields an empty name. -/
theorem c6_config_merge (c : TaggerConfig)
    (h : suppliedNamesNonEmpty c.attributes = true) :
    ((mkConfig c).attributes.type ≠ "" ∧ (mkConfig c).attributes.action ≠ "" ∧
      (mkConfig c).attributes.context ≠ "" ∧ (mkConfig c).attributes.value ≠ "") ∧
    (c.attributes = none → (mkConfig c).attributes = defaultAttributes) ∧
    (∀ a, c.attributes = some a →
      (mkConfig c).attributes =
        { type := a.type.getD "data-type", action := a.action.getD "data-action",
          context := a.context.getD "data-context", value := a.value.getD "data-value" }) := by
  have hne : ∀ (o : Option String) (d : String), optNonEmpty o = true → d ≠ "" →
      o.getD d ≠ "" := by
    intro o d ho hd
    cases o with
    | none => exact hd
    | some s => simpa [optNonEmpty] using ho
  have hmab : (mkConfig c).attributes = mergeAttributes c.attributes := rfl
  cases hc : c.attributes with
  | none =>
    rw [hc] at hmab
    refine ⟨?_, fun _ => by rw [hmab]; rfl, fun a ha => ?_⟩
    · rw [hmab]
      decide
    · exact Option.noConfusion ha
  | some a =>
    rw [hc] at hmab
    rw [hc] at h
    simp only [suppliedNamesNonEmpty, Bool.and_eq_true] at h
    obtain ⟨⟨⟨ht, hact⟩, hctx⟩, hval⟩ := h
    refine ⟨?_, fun hnone => ?_, fun a2 ha2 => ?_⟩
    · rw [hmab]
      exact ⟨hne _ _ ht (by decide), hne _ _ hact (by decide),
             hne _ _ hctx (by decide), hne _ _ hval (by decide)⟩
    · exact Option.noConfusion hnone
    · injection ha2 with ha3
      subst ha3
      rw [hmab]
      rfl

/-- Witness for C6's amended theorem at a configuration overriding only the
action name. -/
theorem c6_config_merge_witness :
    (mkConfig { attributes := some { action := some "x-act" } }).attributes.type ≠ "" ∧
    (mkConfig { attributes := some { action := some "x-act" } }).attributes.action ≠ "" ∧
    (mkConfig { attributes := some { action := some "x-act" } }).attributes.context ≠ "" ∧
    (mkConfig { attributes := some { action := some "x-act" } }).attributes.value ≠ "" :=
  (c6_config_merge _ (by decide)).1

/-! ## Claim C7 -/

/-- Claim C7: `determineType` implements exactly the fixed first-match rule
order of §4.1 — the input-type mapping table, then `select`/`textarea`,
then the ARIA roles, then the case-insensitive class substrings, then
`a`/`button`/`span`, then the lowercase tag fallback — as transcribed by
`determineTypeSpec`. -/
theorem c7_type_rule_order (e : Elem) : determineType e = determineTypeSpec e := by
  unfold determineType determineTypeSpec
  simp only [tableLookup, inputTypeTable]
  by_cases h : jsToLower e.tagName = "input"
  · simp only [h, if_true]
    by_cases h1 : (getAttr e "type").getD "" = "checkbox" <;>
      by_cases h2 : (getAttr e "type").getD "" = "radio" <;>
        by_cases h3 : (getAttr e "type").getD "" = "text" <;>
          by_cases h4 : (getAttr e "type").getD "" = "number" <;>
            by_cases h5 : (getAttr e "type").getD "" = "range" <;>
              by_cases h6 : (getAttr e "type").getD "" = "file" <;>
                simp [h1, h2, h3, h4, h5, h6]
  · simp only [h, if_false]

/-! ## Claim C8 -/

/-- Claim C8, counterexample: a `select` whose selected option's text is
whitespace (non-empty raw, trimming to the empty string) gets the empty
string as its action — rule 1 applies and returns the trimmed text instead
of falling through to the later rules, whose fallback would have produced
`select-element`. -/
theorem c8_counterexample :
    jsTrim "   " = "" ∧
    determineAction { mkElem [] with tagName := "SELECT", selectedOption := some ⟨"", some "   "⟩ } = "" ∧
    determineActionTail { mkElem [] with tagName := "SELECT", selectedOption := some ⟨"", some "   "⟩ } = "select-element" :=
  ⟨by decide, by decide, by decide⟩

/-- Claim C8, amended: rule 1 applies whenever the selected option exists
and its raw text is non-empty before trimming, returning the trimmed text
(possibly empty); inference falls through to the later rules only when
there is no selected option or its text is null or empty. -/
theorem c8_select_action_raw_text (e : Elem) (h : jsToLower e.tagName = "select") :
    (∀ o t, e.selectedOption = some o → o.textContent = some t → t ≠ "" →
      determineAction e = jsTrim t) ∧
    ((e.selectedOption = none ∨
      ∃ o, e.selectedOption = some o ∧ (o.textContent = none ∨ o.textContent = some "")) →
      determineAction e = determineActionTail e) := by
  constructor
  · intro o t ho ht hne
    unfold determineAction
    simp [h, ho, ht, hne]
  · intro hdisj
    unfold determineAction
    rcases hdisj with hnone | ⟨o, ho, htc⟩
    · simp [h, hnone]
    · rcases htc with h1 | h1 <;> simp [h, ho, h1]

/-- Witness for C8's amended theorem at the whitespace-text select of the
counterexample. -/
theorem c8_select_action_raw_text_witness :
    determineAction { mkElem [] with tagName := "SELECT", selectedOption := some ⟨"", some "   "⟩ } = jsTrim "   " :=
  (c8_select_action_raw_text _ (by decide)).1 ⟨"", some "   "⟩ "   " rfl rfl (by decide)

/-! ## Claim C9 -/

/-- Claim C9: when the ancestor walk resolves `hero` or `header`, the
context survives exactly when the element's absolute top (rect top plus
scroll offset) lies within the top quartile of the page height, and when it
resolves `footer`, exactly when the absolute bottom lies within the bottom
quartile; a failed test yields `main-content`. -/
theorem c9_position_refinement (e : Elem) (c : String)
    (hw : contextWalk e.ancestors = some c) (hb : e.isBodyElem = false) :
    ((c = "hero" ∨ c = "header") →
      determineContext e =
        (if e.geom.rectTop + e.geom.pageYOffset ≤
            max e.geom.docScrollHeight e.geom.bodyScrollHeight * (1 / 4 : ℚ)
         then c else "main-content")) ∧
    (c = "footer" →
      determineContext e =
        (if e.geom.rectBottom + e.geom.pageYOffset ≥
            max e.geom.docScrollHeight e.geom.bodyScrollHeight * (3 / 4 : ℚ)
         then c else "main-content")) := by
  have ne1 : ("header" : String) ≠ "hero" := by decide
  have ne2 : ("footer" : String) ≠ "hero" := by decide
  have ne3 : ("footer" : String) ≠ "header" := by decide
  have ne4 : ("hero" : String) ≠ "footer" := by decide
  have ne5 : ("header" : String) ≠ "footer" := by decide
  constructor
  · intro hcc
    by_cases htop : e.geom.rectTop + e.geom.pageYOffset ≤
        max e.geom.docScrollHeight e.geom.bodyScrollHeight * (1 / 4 : ℚ)
    · rw [if_pos htop]
      have hngt : ¬ max e.geom.docScrollHeight e.geom.bodyScrollHeight * (4 : ℚ)⁻¹ <
          e.geom.rectTop + e.geom.pageYOffset := by
        rw [inv_eq_one_div]
        exact not_lt.mpr htop
      rcases hcc with rfl | rfl
      · simp [determineContext, hb, hw, hngt, ne4]
      · simp [determineContext, hb, hw, hngt, ne1, ne5]
    · rw [if_neg htop]
      have hgt : max e.geom.docScrollHeight e.geom.bodyScrollHeight * (4 : ℚ)⁻¹ <
          e.geom.rectTop + e.geom.pageYOffset := by
        rw [inv_eq_one_div]
        exact not_le.mp htop
      rcases hcc with rfl | rfl
      · simp [determineContext, hb, hw, hgt, ne4]
      · simp [determineContext, hb, hw, hgt, ne1, ne5]
  · intro hcf
    subst hcf
    by_cases hbot : e.geom.rectBottom + e.geom.pageYOffset ≥
        max e.geom.docScrollHeight e.geom.bodyScrollHeight * (3 / 4 : ℚ)
    · rw [if_pos hbot]
      have hnlt := not_lt.mpr hbot
      simp [determineContext, hb, hw, hnlt, ne2, ne3]
    · rw [if_neg hbot]
      have hlt := not_le.mp hbot
      simp [determineContext, hb, hw, hlt, ne2, ne3]

/-- A button-like element whose nearest qualifying ancestor has class `hero`
and whose absolute top (10) lies within the top quartile of the 100-unit
page. -/
def heroProbe : Elem :=
  { mkElem [] with
    ancestors := [⟨"DIV", "hero", none, false⟩],
    geom := ⟨10, 20, 0, 100, 100⟩ }

/-- Witness for C9: the probe element in the top quartile resolves to
`hero`. -/
theorem c9_position_refinement_witness : determineContext heroProbe = "hero" := by
  have h := (c9_position_refinement heroProbe "hero" (by decide) rfl).1 (Or.inl rfl)
  have hcond : heroProbe.geom.rectTop + heroProbe.geom.pageYOffset ≤
      max heroProbe.geom.docScrollHeight heroProbe.geom.bodyScrollHeight * (1 / 4 : ℚ) := by
    show (10 : ℚ) + 0 ≤ max (100 : ℚ) 100 * (1 / 4)
    rw [max_self]
    norm_num
  rw [h, if_pos hcond]

/-! ## Claim C10 -/

/-- Claim C10: under every fault scenario `init` returns normally (its catch
swallows any exception), and the bulk-tagging pass runs the caught
per-element tagger over every node independently — the whole `forEach`
completes without an escaping error, so one element's failure never
prevents the remaining matching elements from being processed. -/
theorem c10_init_never_throws (fm : FaultModel) (env : InitEnv) (cfg : ResolvedConfig)
    (nodes : List Node) :
    (∃ s, init fm env cfg nodes = Except.ok s) ∧
    runForEach (tagNodeE fm cfg) nodes = Except.ok (nodes.map (tagNode fm cfg)) ∧
    tagExistingElementsE fm cfg nodes =
      (if fm.queryThrows then nodes else nodes.map (tagNode fm cfg)) := by
  have hfe : ∀ l : List Node,
      runForEach (tagNodeE fm cfg) l = Except.ok (l.map (tagNode fm cfg)) := by
    intro l
    induction l with
    | nil => rfl
    | cons n rest ih => simp [runForEach, tagNodeE, Except.bind, ih]
  refine ⟨?_, hfe nodes, ?_⟩
  · unfold init
    cases hini : initBodyE fm env cfg nodes with
    | ok s => exact ⟨s, rfl⟩
    | error msg =>
      exact ⟨{ dom := nodes, metrics := none, sink := [],
               clickInstalled := false, changeInstalled := false }, rfl⟩
  · unfold tagExistingElementsE
    by_cases hq : fm.queryThrows
    · simp [hq]
    · simp [hq, hfe nodes]

end CTA
